import Mathlib

/-!
# Verification of `src/crypto_utils.py` (secure-password-manager)

Shallow embedding of the envelope-encryption core.

Modelling conventions:
* Python `str` values are represented by their UTF-8 byte sequences, as
  `List Nat` with each element `< 256`; `s.encode('utf-8')` and
  `bytes.decode('utf-8')` are therefore the identity at this level.
* Python `bytes` values are `List Nat` as well.
* Exceptions are the inductive `PyExc`; `raise X(msg) from e` is modelled by
  the `...From` constructors carrying the chained cause, mirroring the
  source's explicit exception chaining.
* `secrets.token_bytes` is nondeterministic in the source; the freshly drawn
  salt and IV are therefore explicit parameters of the embedded
  `encrypt_password` (and of the rotation helper, for its inner encryption).
* The external `cryptography` library primitives are not part of the
  repository.  They are modelled structurally:
  - `PBKDF2HMAC(...).derive` as a deterministic pseudorandom byte function
    (`pbkdf2Prf`) of (password, salt, iterations, length), returning exactly
    `length` bytes; its possible environmental failure is captured by the
    `CryptoLib` parameter, whose `pbkdf2` field may return an error.
  - AES-256-GCM as a counter-mode stream cipher (ciphertext = plaintext XOR
    keystream, so ciphertext length = plaintext length) together with a
    polynomial MAC over the ciphertext in the field with 257 elements,
    masked by a key/nonce value — the same algebraic shape as GCM's
    GHASH-over-GF(2^128) plus mask.  The hash subkey is made nonzero by
    construction, giving the model GCM's tamper-detection guarantee
    unconditionally (real GCM provides it except with negligible
    probability); the tag is checked before any plaintext is released,
    `InvalidTag` being raised on mismatch exactly as the library does.
-/

namespace CryptoUtils

/-- Python exception values as observed by a caller: the exception class,
its message, and (for `raise ... from e`) the chained `__cause__`.
`invalidTag` models `cryptography.exceptions.InvalidTag` (not a `ValueError`,
not a `RuntimeError`). -/
inductive PyExc : Type where
  | valueError (msg : String)
  | valueErrorFrom (msg : String) (cause : PyExc)
  | runtimeError (msg : String)
  | runtimeErrorFrom (msg : String) (cause : PyExc)
  | invalidTag
deriving DecidableEq, Repr

/-- Byte strings (and UTF-8 images of Python `str`), each entry `< 256`. -/
abbrev Bytes := List Nat

/-! ## Encryption constants (source lines 19–23) -/

def AES_KEY_SIZE : Nat := 32
def IV_SIZE : Nat := 16
def TAG_SIZE : Nat := 16
def SALT_SIZE : Nat := 32
def PBKDF2_ITERATIONS : Nat := 100000

/-! ## Base64 (model of `base64.b64encode` / `base64.b64decode`)

Standard alphabet, `=` (ASCII 61) padding.  `b64decodeBytes` returns `none`
where the Python decoder raises `binascii.Error` (a `ValueError` subclass):
input length not a multiple of four, characters outside the alphabet, or
misplaced padding. -/

/-- The base64 alphabet: 6-bit value to ASCII code. -/
def b64Char (v : Nat) : Nat :=
  if v < 26 then 65 + v
  else if v < 52 then 71 + v
  else if v < 62 then v - 4
  else if v = 62 then 43
  else 47

/-- ASCII code back to 6-bit value; `none` for non-alphabet characters. -/
def b64Val (c : Nat) : Option Nat :=
  if 65 ≤ c ∧ c ≤ 90 then some (c - 65)
  else if 97 ≤ c ∧ c ≤ 122 then some (c - 71)
  else if 48 ≤ c ∧ c ≤ 57 then some (c + 4)
  else if c = 43 then some 62
  else if c = 47 then some 63
  else none

/-- Model of `base64.b64encode` on a byte string, producing ASCII codes. -/
def b64encodeBytes : Bytes → Bytes
  | [] => []
  | [a] => [b64Char (a / 4), b64Char (a % 4 * 16), 61, 61]
  | [a, b] => [b64Char (a / 4), b64Char (a % 4 * 16 + b / 16), b64Char (b % 16 * 4), 61]
  | a :: b :: c :: rest =>
      b64Char (a / 4) :: b64Char (a % 4 * 16 + b / 16) ::
      b64Char (b % 16 * 4 + c / 64) :: b64Char (c % 64) :: b64encodeBytes rest

/-- Model of `base64.b64decode` on ASCII codes; `none` models `binascii.Error`. -/
def b64decodeBytes : Bytes → Option Bytes
  | [] => some []
  | c0 :: c1 :: c2 :: c3 :: rest =>
    match b64Val c0, b64Val c1 with
    | some v0, some v1 =>
      if c2 = 61 then
        if c3 = 61 ∧ rest = [] then some [v0 * 4 + v1 / 16] else none
      else
        match b64Val c2 with
        | some v2 =>
          if c3 = 61 then
            if rest = [] then some [v0 * 4 + v1 / 16, v1 % 16 * 16 + v2 / 4] else none
          else
            match b64Val c3 with
            | some v3 =>
              match b64decodeBytes rest with
              | some bs =>
                  some ((v0 * 4 + v1 / 16) :: (v1 % 16 * 16 + v2 / 4) :: (v2 % 4 * 64 + v3) :: bs)
              | none => none
            | none => none
        | none => none
    | _, _ => none
  | _ => none

/-! ## Model of the external `cryptography` primitives -/

/-- One mixing step of the concrete pseudorandom model, working mod 257. -/
def mixStep (acc b : Nat) : Nat := (acc * 131 + b + 11) % 257

/-- Fold a byte list into a value `< 257` from a seed. -/
def mixList (seed : Nat) (l : Bytes) : Nat := l.foldl mixStep (seed % 257)

/-- Model of `PBKDF2HMAC(hashes.SHA256(), length, salt, iterations).derive`:
a deterministic pseudorandom function of (password, salt, iterations)
returning exactly `length` bytes. -/
def pbkdf2Prf (pw salt : Bytes) (iterations length : Nat) : Bytes :=
  (List.range length).map (fun i => mixList (mixList (iterations + i) salt) pw % 256)

/-- The ambient cryptography library.  `pbkdf2` may fail with an exception,
modelling the (environmental) failure path that
`derive_key_from_master` catches; `stdLib` below is the normal library in
which derivation always succeeds. -/
structure CryptoLib : Type where
  pbkdf2 : Bytes → Bytes → Nat → Nat → Except PyExc Bytes

/-- The normally functioning library: PBKDF2 is `pbkdf2Prf`, never failing. -/
def stdLib : CryptoLib := ⟨fun pw salt it len => .ok (pbkdf2Prf pw salt it len)⟩

/-- A library whose PBKDF2 primitive fails with exception `e`
(models e.g. a platform/library failure inside `kdf.derive`). -/
def failingLib (e : PyExc) : CryptoLib := ⟨fun _ _ _ _ => .error e⟩

/-- Keystream byte `i` of the CTR-structured stream for (key, nonce). -/
def keystreamByte (key nonce : Bytes) (i : Nat) : Nat :=
  mixList (mixList (i + 1) nonce) key % 256

/-- First `n` keystream bytes for (key, nonce). -/
def gcmKeystream (key nonce : Bytes) (n : Nat) : Bytes :=
  (List.range n).map (keystreamByte key nonce)

/-- GCM encryption body: plaintext XOR keystream (counter-mode structure),
so the ciphertext has the plaintext's length. -/
def gcmEncrypt (key nonce pt : Bytes) : Bytes :=
  List.zipWith (fun a b => a ^^^ b) pt (gcmKeystream key nonce pt.length)

/-- The polynomial-MAC hash subkey derived from the key (analogue of GCM's
`H = E_K(0)`); made nonzero by construction, so the model enjoys GCM's
authentication guarantee unconditionally. -/
def ghashKey (key : Bytes) : Nat := mixList 3 key % 256 + 1

/-- One Horner step of the polynomial MAC over the field with 257 elements. -/
def gstep (h acc c : Nat) : Nat := (acc + c) * h % 257

/-- Polynomial MAC of a byte string under hash subkey `h` (GHASH analogue). -/
def ghash (h : Nat) (ct : Bytes) : Nat := ct.foldl (gstep h) 0

/-- Key/nonce-dependent filler bytes completing the 16-byte tag. -/
def fillerByte (key nonce : Bytes) (i : Nat) : Nat :=
  mixList (mixList (i + 33) nonce) key % 256

/-- Masked MAC value of the tag (analogue of `GHASH ⊕ E_K(J0)`), `< 257`. -/
def gcmTagVal (key nonce ct : Bytes) : Nat :=
  (ghash (ghashKey key) ct + mixList 5 (key ++ nonce)) % 257

/-- The 16-byte authentication tag: two bytes encoding the masked MAC value,
then fourteen key/nonce filler bytes. -/
def gcmTag (key nonce ct : Bytes) : Bytes :=
  gcmTagVal key nonce ct / 256 :: gcmTagVal key nonce ct % 256 ::
    (List.range 14).map (fillerByte key nonce)

/-- GCM open: recompute the tag over the received ciphertext and compare with
the received tag before releasing any plaintext; on mismatch raise
`InvalidTag` (as `decryptor.finalize()` does). -/
def gcmDecrypt (key nonce tag ct : Bytes) : Except PyExc Bytes :=
  if gcmTag key nonce ct = tag then
    .ok (List.zipWith (fun a b => a ^^^ b) ct (gcmKeystream key nonce ct.length))
  else .error .invalidTag

/-! ## The four operations of `crypto_utils.py` -/

/-- Source function `derive_key_from_master(master_key, salt)` (lines 26–63):
empty-key check, then PBKDF2 with `PBKDF2_ITERATIONS` and `AES_KEY_SIZE`;
any failure of the primitive is caught and re-raised as
`RuntimeError("Key derivation failed") from e`. -/
def derive_key_from_master (lib : CryptoLib) (master_key salt : Bytes) :
    Except PyExc Bytes :=
  if master_key = [] then .error (.valueError "Master key cannot be empty")
  else
    match lib.pbkdf2 master_key salt PBKDF2_ITERATIONS AES_KEY_SIZE with
    | .ok key => .ok key
    | .error e => .error (.runtimeErrorFrom "Key derivation failed" e)

/-- Source function `encrypt_password(plaintext_password, master_key)` (lines 66–122).
`salt` and `iv` are the bytes drawn by the two `secrets.token_bytes` calls.
Any exception inside the `try` block (in particular a key-derivation
failure) is caught and re-raised as
`RuntimeError("Password encryption failed") from e`. -/
def encrypt_password (lib : CryptoLib) (plaintext_password master_key salt iv : Bytes) :
    Except PyExc Bytes :=
  if plaintext_password = [] then .error (.valueError "Password cannot be empty")
  else if master_key = [] then .error (.valueError "Master key cannot be empty")
  else
    match derive_key_from_master lib master_key salt with
    | .error e => .error (.runtimeErrorFrom "Password encryption failed" e)
    | .ok key =>
        .ok (b64encodeBytes
          (salt ++ iv ++ gcmTag key iv (gcmEncrypt key iv plaintext_password) ++
            gcmEncrypt key iv plaintext_password))

/-- Source function `decrypt_password(encrypted_password, master_key)` (lines 125–183):
empty-input checks; base64 decode; minimum-length check; fixed-offset
slicing; key re-derivation from the embedded salt; GCM open.  A `ValueError`
raised inside the `try` block (base64 error or the length check) is
re-raised as `ValueError("Invalid encrypted password data") from e`; any
other exception (`InvalidTag`, key-derivation `RuntimeError`) as
`RuntimeError("Password decryption failed") from e`. -/
def decrypt_password (lib : CryptoLib) (encrypted_password master_key : Bytes) :
    Except PyExc Bytes :=
  if encrypted_password = [] then
    .error (.valueError "Encrypted password cannot be empty")
  else if master_key = [] then .error (.valueError "Master key cannot be empty")
  else
    match b64decodeBytes encrypted_password with
    | none =>
        .error (.valueErrorFrom "Invalid encrypted password data"
          (.valueError "Incorrect padding"))
    | some encrypted_data =>
      if encrypted_data.length < SALT_SIZE + IV_SIZE + TAG_SIZE then
        .error (.valueErrorFrom "Invalid encrypted password data"
          (.valueError "Invalid encrypted data format"))
      else
        match derive_key_from_master lib master_key (encrypted_data.take SALT_SIZE) with
        | .error e => .error (.runtimeErrorFrom "Password decryption failed" e)
        | .ok key =>
          match gcmDecrypt key ((encrypted_data.drop SALT_SIZE).take IV_SIZE)
              ((encrypted_data.drop (SALT_SIZE + IV_SIZE)).take TAG_SIZE)
              (encrypted_data.drop (SALT_SIZE + IV_SIZE + TAG_SIZE)) with
          | .error e => .error (.runtimeErrorFrom "Password decryption failed" e)
          | .ok plaintext_bytes => .ok plaintext_bytes

/-- Source function `change_password_encryption(old_encrypted, old_master_key,
new_master_key)` (lines 186–217): decrypt with the old key, re-encrypt with the new
key (`salt`, `iv` are the fresh bytes drawn by that inner encryption); any
exception from either step is caught and re-raised as
`RuntimeError("Password re-encryption failed") from e`. -/
def change_password_encryption (lib : CryptoLib)
    (old_encrypted old_master_key new_master_key salt iv : Bytes) :
    Except PyExc Bytes :=
  match decrypt_password lib old_encrypted old_master_key with
  | .error e => .error (.runtimeErrorFrom "Password re-encryption failed" e)
  | .ok plaintext =>
    match encrypt_password lib plaintext new_master_key salt iv with
    | .error e => .error (.runtimeErrorFrom "Password re-encryption failed" e)
    | .ok new_encrypted => .ok new_encrypted

/-- The key `derive_key_from_master` produces under the normal library. -/
def deriveStd (master_key salt : Bytes) : Bytes :=
  pbkdf2Prf master_key salt PBKDF2_ITERATIONS AES_KEY_SIZE

/-- The ciphertext segment `encrypt_password` produces for the given
plaintext, master key, salt and IV. -/
def envCt (P K salt iv : Bytes) : Bytes := gcmEncrypt (deriveStd K salt) iv P

/-- The tag segment `encrypt_password` produces for the given plaintext,
master key, salt and IV. -/
def envTag (P K salt iv : Bytes) : Bytes :=
  gcmTag (deriveStd K salt) iv (envCt P K salt iv)

/-! ## Base64 lemmas -/

theorem b64Val_b64Char : ∀ v < 64, b64Val (b64Char v) = some v := by decide

theorem b64Char_ne_eq : ∀ v < 64, b64Char v ≠ 61 := by decide

set_option maxRecDepth 8192 in
theorem b64ReconFst : ∀ a < 256, ∀ t < 16, a / 4 * 4 + (a % 4 * 16 + t) / 16 = a := by
  decide

set_option maxRecDepth 8192 in
theorem b64ReconSnd :
    ∀ q < 4, ∀ b < 256, ∀ s < 4,
      (q * 16 + b / 16) % 16 * 16 + (b % 16 * 4 + s) / 4 = b := by
  decide

set_option maxRecDepth 8192 in
theorem b64ReconTrd : ∀ r < 16, ∀ c < 256, (r * 4 + c / 64) % 4 * 64 + c % 64 = c := by
  decide

theorem b64_roundtrip :
    ∀ bs : Bytes, (∀ x ∈ bs, x < 256) →
      b64decodeBytes (b64encodeBytes bs) = some bs
  | [], _ => rfl
  | [a], h => by
      have ha : a < 256 := h a (by simp)
      have h0 : a / 4 < 64 := by omega
      have h1 : a % 4 * 16 < 64 := by omega
      have hx := b64ReconFst a ha 0 (by omega)
      rw [Nat.add_zero] at hx
      simp only [b64encodeBytes, b64decodeBytes, b64Val_b64Char _ h0,
        b64Val_b64Char _ h1, and_self, eq_self_iff_true, if_true,
        Option.some.injEq, List.cons.injEq, and_true]
      exact hx
  | [a, b], h => by
      have ha : a < 256 := h a (by simp)
      have hb : b < 256 := h b (by simp)
      have h0 : a / 4 < 64 := by omega
      have h1 : a % 4 * 16 + b / 16 < 64 := by omega
      have h2 : b % 16 * 4 < 64 := by omega
      have hx := b64ReconFst a ha (b / 16) (by omega)
      have hy := b64ReconSnd (a % 4) (by omega) b hb 0 (by omega)
      rw [Nat.add_zero] at hy
      simp only [b64encodeBytes, b64decodeBytes, b64Val_b64Char _ h0,
        b64Val_b64Char _ h1, b64Val_b64Char _ h2,
        if_neg (b64Char_ne_eq _ h2), eq_self_iff_true, if_true,
        Option.some.injEq, List.cons.injEq, and_true]
      exact ⟨hx, hy⟩
  | a :: b :: c :: rest, h => by
      have ha : a < 256 := h a (by simp)
      have hb : b < 256 := h b (by simp)
      have hc : c < 256 := h c (by simp)
      have h0 : a / 4 < 64 := by omega
      have h1 : a % 4 * 16 + b / 16 < 64 := by omega
      have h2 : b % 16 * 4 + c / 64 < 64 := by omega
      have h3 : c % 64 < 64 := by omega
      have hx := b64ReconFst a ha (b / 16) (by omega)
      have hy := b64ReconSnd (a % 4) (by omega) b hb (c / 64) (by omega)
      have hz := b64ReconTrd (b % 16) (by omega) c hc
      have hrest := b64_roundtrip rest (fun x hx => h x (by simp [hx]))
      simp only [b64encodeBytes, b64decodeBytes, b64Val_b64Char _ h0,
        b64Val_b64Char _ h1, b64Val_b64Char _ h2, b64Val_b64Char _ h3,
        if_neg (b64Char_ne_eq _ h2), if_neg (b64Char_ne_eq _ h3), hrest,
        eq_self_iff_true, Option.some.injEq, List.cons.injEq, and_true]
      exact ⟨hx, hy, hz⟩

theorem b64encode_ne_nil : ∀ bs : Bytes, bs ≠ [] → b64encodeBytes bs ≠ []
  | [], h => absurd rfl h
  | [_], _ => by simp [b64encodeBytes]
  | [_, _], _ => by simp [b64encodeBytes]
  | _ :: _ :: _ :: _, _ => by simp [b64encodeBytes]

/-! ## Byte-range and length lemmas for the cipher model -/

theorem mixStep_lt (acc b : Nat) : mixStep acc b < 257 :=
  Nat.mod_lt _ (by norm_num)

theorem foldl_mixStep_lt : ∀ (l : Bytes) (a : Nat), a < 257 →
    List.foldl mixStep a l < 257
  | [], _, h => h
  | x :: xs, a, _ => foldl_mixStep_lt xs (mixStep a x) (mixStep_lt a x)

theorem mixList_lt (seed : Nat) (l : Bytes) : mixList seed l < 257 :=
  foldl_mixStep_lt l (seed % 257) (Nat.mod_lt _ (by norm_num))

theorem pbkdf2Prf_length (pw salt : Bytes) (it len : Nat) :
    (pbkdf2Prf pw salt it len).length = len := by simp [pbkdf2Prf]

theorem pbkdf2Prf_bytes (pw salt : Bytes) (it len : Nat) :
    ∀ x ∈ pbkdf2Prf pw salt it len, x < 256 := by
  intro x hx
  simp only [pbkdf2Prf, List.mem_map] at hx
  obtain ⟨i, _, rfl⟩ := hx
  exact Nat.mod_lt _ (by norm_num)

theorem gcmKeystream_length (key nonce : Bytes) (n : Nat) :
    (gcmKeystream key nonce n).length = n := by simp [gcmKeystream]

theorem gcmKeystream_bytes (key nonce : Bytes) (n : Nat) :
    ∀ x ∈ gcmKeystream key nonce n, x < 256 := by
  intro x hx
  simp only [gcmKeystream, List.mem_map] at hx
  obtain ⟨i, _, rfl⟩ := hx
  exact Nat.mod_lt _ (by norm_num)

theorem zipWith_xor_bytes :
    ∀ (l₁ l₂ : Bytes), (∀ x ∈ l₁, x < 256) → (∀ x ∈ l₂, x < 256) →
      ∀ x ∈ List.zipWith (fun a b => a ^^^ b) l₁ l₂, x < 256
  | [], _, _, _ => by simp
  | _ :: _, [], _, _ => by simp
  | a :: l₁, b :: l₂, h₁, h₂ => by
      intro x hx
      simp only [List.zipWith_cons_cons, List.mem_cons] at hx
      rcases hx with rfl | hx
      · have ha : a < 2 ^ 8 := by simpa using h₁ a (by simp)
        have hb : b < 2 ^ 8 := by simpa using h₂ b (by simp)
        simpa using Nat.xor_lt_two_pow ha hb
      · exact zipWith_xor_bytes l₁ l₂ (fun y hy => h₁ y (by simp [hy]))
          (fun y hy => h₂ y (by simp [hy])) x hx

theorem gcmEncrypt_length (key nonce pt : Bytes) :
    (gcmEncrypt key nonce pt).length = pt.length := by
  simp [gcmEncrypt, gcmKeystream]

theorem gcmEncrypt_bytes (key nonce pt : Bytes) (h : ∀ x ∈ pt, x < 256) :
    ∀ x ∈ gcmEncrypt key nonce pt, x < 256 :=
  zipWith_xor_bytes pt _ h (gcmKeystream_bytes key nonce pt.length)

theorem gcmTagVal_lt (key nonce ct : Bytes) : gcmTagVal key nonce ct < 257 :=
  Nat.mod_lt _ (by norm_num)

theorem gcmTag_length (key nonce ct : Bytes) : (gcmTag key nonce ct).length = 16 := by
  simp [gcmTag]

theorem gcmTag_bytes (key nonce ct : Bytes) : ∀ x ∈ gcmTag key nonce ct, x < 256 := by
  intro x hx
  have ht := gcmTagVal_lt key nonce ct
  simp only [gcmTag, List.mem_cons, List.mem_map] at hx
  rcases hx with rfl | hx
  · omega
  rcases hx with rfl | hx
  · omega
  obtain ⟨i, _, rfl⟩ := hx
  exact Nat.mod_lt _ (by norm_num)

theorem zipWith_xor_cancel :
    ∀ (l ks : Bytes), ks.length = l.length →
      List.zipWith (fun a b => a ^^^ b)
        (List.zipWith (fun a b => a ^^^ b) l ks) ks = l
  | [], _, _ => by simp
  | a :: l, [], h => by simp at h
  | a :: l, k :: ks, h => by
      simp only [List.zipWith_cons_cons, List.cons.injEq]
      refine ⟨by rw [Nat.xor_assoc, Nat.xor_self, Nat.xor_zero], ?_⟩
      exact zipWith_xor_cancel l ks (by simpa using h)

/-! ## Envelope slicing lemmas -/

theorem env_take_salt (salt rest : Bytes) (hs : salt.length = 32) :
    (salt ++ rest).take 32 = salt := List.take_left' hs

theorem env_drop_salt (salt rest : Bytes) (hs : salt.length = 32) :
    (salt ++ rest).drop 32 = rest := List.drop_left' hs

theorem env_slices (salt iv tag ct : Bytes) (hs : salt.length = 32)
    (hi : iv.length = 16) (ht : tag.length = 16) :
    (salt ++ iv ++ tag ++ ct).take 32 = salt ∧
    ((salt ++ iv ++ tag ++ ct).drop 32).take 16 = iv ∧
    ((salt ++ iv ++ tag ++ ct).drop 48).take 16 = tag ∧
    (salt ++ iv ++ tag ++ ct).drop 64 = ct := by
  have h1 : (salt ++ (iv ++ (tag ++ ct))).take 32 = salt := List.take_left' hs
  have h2 : (salt ++ (iv ++ (tag ++ ct))).drop 32 = iv ++ (tag ++ ct) :=
    List.drop_left' hs
  have h3 : (iv ++ (tag ++ ct)).take 16 = iv := List.take_left' hi
  have h4 : (iv ++ (tag ++ ct)).drop 16 = tag ++ ct := List.drop_left' hi
  have h5 : (tag ++ ct).take 16 = tag := List.take_left' ht
  have h6 : (tag ++ ct).drop 16 = ct := List.drop_left' ht
  have d48 : (salt ++ (iv ++ (tag ++ ct))).drop 48 = tag ++ ct := by
    rw [(by norm_num : (48 : Nat) = 32 + 16), ← List.drop_drop, h2, h4]
  have d64 : (salt ++ (iv ++ (tag ++ ct))).drop 64 = ct := by
    rw [(by norm_num : (64 : Nat) = 48 + 16), ← List.drop_drop, d48, h6]
  refine ⟨by simpa using h1, ?_, ?_, ?_⟩
  · simp only [List.append_assoc]; rw [h2]; exact h3
  · simp only [List.append_assoc]; rw [d48]; exact h5
  · simp only [List.append_assoc]; rw [d64]

theorem env_length (salt iv tag ct : Bytes) (hs : salt.length = 32)
    (hi : iv.length = 16) (ht : tag.length = 16) :
    (salt ++ iv ++ tag ++ ct).length = 64 + ct.length := by
  simp [List.length_append, hs, hi, ht]; omega

/-! ## Tamper detection: the polynomial MAC separates single-byte changes

The MAC works in the field with 257 elements; a Horner step
`acc ↦ (acc + c) * h` is injective there whenever the hash subkey `h` is
nonzero, so two ciphertexts differing in exactly one byte (a difference
that is nonzero mod 257 because bytes are `< 256 < 257`) have different
MAC values — the analogue of GHASH separating single-block changes in
GF(2^128) when `H ≠ 0`. -/

instance : Fact (Nat.Prime 257) := ⟨by norm_num⟩

/-- The Horner step of `ghash`, viewed in the field `ZMod 257`. -/
def zstep (h z : ZMod 257) (c : Nat) : ZMod 257 := (z + (c : ZMod 257)) * h

theorem gstep_cast (h a c : Nat) :
    ((gstep h a c : Nat) : ZMod 257) = zstep (h : ZMod 257) (a : ZMod 257) c := by
  unfold gstep zstep
  rw [ZMod.natCast_mod]
  push_cast
  ring

theorem foldl_gstep_cast (h : Nat) :
    ∀ (l : Bytes) (a : Nat),
      ((l.foldl (gstep h) a : Nat) : ZMod 257) =
        l.foldl (zstep (h : ZMod 257)) ((a : Nat) : ZMod 257)
  | [], _ => rfl
  | c :: l, a => by
      simp only [List.foldl_cons]
      rw [foldl_gstep_cast h l (gstep h a c), gstep_cast]

theorem foldl_zstep_ne {h : ZMod 257} (hh : h ≠ 0) :
    ∀ (l : Bytes) {x y : ZMod 257}, x ≠ y →
      l.foldl (zstep h) x ≠ l.foldl (zstep h) y
  | [], _, _, hxy => hxy
  | c :: l, x, y, hxy => by
      simp only [List.foldl_cons]
      refine foldl_zstep_ne hh l ?_
      intro heq
      exact hxy (by
        have := mul_right_cancel₀ hh heq
        exact add_right_cancel this)

theorem natCast_byte_ne {a b : Nat} (ha : a < 257) (hb : b < 257) (hab : a ≠ b) :
    (a : ZMod 257) ≠ (b : ZMod 257) := by
  intro heq
  apply hab
  have := congrArg ZMod.val heq
  rwa [ZMod.val_cast_of_lt ha, ZMod.val_cast_of_lt hb] at this

theorem ghashKey_pos (key : Bytes) : 0 < ghashKey key := Nat.succ_pos _

theorem ghashKey_lt (key : Bytes) : ghashKey key < 257 := by
  have : mixList 3 key % 256 < 256 := Nat.mod_lt _ (by norm_num)
  unfold ghashKey
  omega

theorem ghashKey_cast_ne_zero (key : Bytes) : ((ghashKey key : Nat) : ZMod 257) ≠ 0 := by
  intro h0
  have hv := congrArg ZMod.val h0
  rw [ZMod.val_cast_of_lt (ghashKey_lt key), ZMod.val_zero] at hv
  have := ghashKey_pos key
  omega

theorem ghash_set_ne (h : Nat) (hh : ((h : Nat) : ZMod 257) ≠ 0) (ct : Bytes)
    (j : Nat) (hj : j < ct.length) (x : Nat) (hx : x < 256)
    (hct : ∀ b ∈ ct, b < 256) (hne : x ≠ ct.get ⟨j, hj⟩) :
    ghash h (ct.set j x) ≠ ghash h ct := by
  have hcj : ct.get ⟨j, hj⟩ < 256 := hct _ (List.get_mem ct j hj)
  have hdecomp : ct.take j ++ ct.get ⟨j, hj⟩ :: ct.drop (j + 1) = ct := by
    have h1 := List.take_append_drop j ct
    rwa [List.drop_eq_getElem_cons hj] at h1
  have hset : ct.set j x = ct.take j ++ x :: ct.drop (j + 1) := by
    rw [List.set_eq_take_append_cons_drop, if_pos hj]
  intro heq
  have hz := congrArg (fun n : Nat => (n : ZMod 257)) heq
  simp only at hz
  unfold ghash at hz
  rw [hset] at hz
  conv_rhs at hz => rw [← hdecomp]
  rw [List.foldl_append, List.foldl_append, List.foldl_cons, List.foldl_cons] at hz
  set A : Nat := (ct.take j).foldl (gstep h) 0 with hA
  rw [foldl_gstep_cast, foldl_gstep_cast, gstep_cast, gstep_cast] at hz
  have hinit : zstep (h : ZMod 257) (A : ZMod 257) x ≠
      zstep (h : ZMod 257) (A : ZMod 257) (ct.get ⟨j, hj⟩) := by
    unfold zstep
    intro hc
    have h1 := mul_right_cancel₀ hh hc
    have h2 := add_left_cancel h1
    exact natCast_byte_ne (by omega) (by omega) hne h2
  exact foldl_zstep_ne hh (ct.drop (j + 1)) hinit hz

theorem foldl_gstep_lt (h : Nat) :
    ∀ (l : Bytes) (a : Nat), a < 257 → l.foldl (gstep h) a < 257
  | [], _, ha => ha
  | c :: l, a, _ =>
      foldl_gstep_lt h l (gstep h a c) (Nat.mod_lt _ (by norm_num))

theorem ghash_lt (h : Nat) (ct : Bytes) : ghash h ct < 257 :=
  foldl_gstep_lt h ct 0 (by norm_num)

/-- Different MAC values give different tags: the first two tag bytes encode
the masked MAC value injectively. -/
theorem gcmTag_ne_of_val_ne (key nonce : Bytes) (ct₁ ct₂ : Bytes)
    (hv : gcmTagVal key nonce ct₁ ≠ gcmTagVal key nonce ct₂) :
    gcmTag key nonce ct₁ ≠ gcmTag key nonce ct₂ := by
  intro heq
  unfold gcmTag at heq
  simp only [List.cons.injEq] at heq
  have h1 := gcmTagVal_lt key nonce ct₁
  have h2 := gcmTagVal_lt key nonce ct₂
  omega

/-- Changing a single ciphertext byte changes the tag. -/
theorem gcmTag_set_ne (key nonce ct : Bytes) (j : Nat) (hj : j < ct.length)
    (x : Nat) (hx : x < 256) (hct : ∀ b ∈ ct, b < 256)
    (hne : x ≠ ct.get ⟨j, hj⟩) :
    gcmTag key nonce (ct.set j x) ≠ gcmTag key nonce ct := by
  apply gcmTag_ne_of_val_ne
  have hg := ghash_set_ne (ghashKey key) (ghashKey_cast_ne_zero key) ct j hj x hx
    hct hne
  have hl1 := ghash_lt (ghashKey key) (ct.set j x)
  have hl2 := ghash_lt (ghashKey key) ct
  unfold gcmTagVal
  omega

/-- Changing a single byte of a list makes it a different list. -/
theorem set_ne_of_ne {l : Bytes} {j : Nat} (hj : j < l.length) {x : Nat}
    (hne : x ≠ l.get ⟨j, hj⟩) : l.set j x ≠ l := by
  intro heq
  apply hne
  have := congrArg (fun t : Bytes => t.getD j 0) heq
  simp only [List.getD_eq_getElem?_getD] at this
  rw [List.getElem?_set_self] at this
  · simp only [List.getElem?_eq_getElem hj] at this
    simpa using this
  · exact hj

/-! ## Structural lemmas about the embedded operations -/

theorem derive_stdLib (K salt : Bytes) (hK : K ≠ []) :
    derive_key_from_master stdLib K salt = .ok (deriveStd K salt) := by
  simp [derive_key_from_master, stdLib, deriveStd, hK]

theorem encrypt_eq (P K salt iv : Bytes) (hP : P ≠ []) (hK : K ≠ []) :
    encrypt_password stdLib P K salt iv =
      .ok (b64encodeBytes (salt ++ iv ++ envTag P K salt iv ++ envCt P K salt iv)) := by
  unfold encrypt_password
  rw [if_neg hP, if_neg hK, derive_stdLib K salt hK]
  rfl

theorem env_bytes_lt (salt iv tag ct : Bytes) (hsb : ∀ x ∈ salt, x < 256)
    (hib : ∀ x ∈ iv, x < 256) (htb : ∀ x ∈ tag, x < 256)
    (hcb : ∀ x ∈ ct, x < 256) : ∀ x ∈ salt ++ iv ++ tag ++ ct, x < 256 := by
  intro x hx
  simp only [List.mem_append] at hx
  rcases hx with ((hx | hx) | hx) | hx
  exacts [hsb x hx, hib x hx, htb x hx, hcb x hx]

theorem decrypt_encoded (lib : CryptoLib) (salt iv tag ct K : Bytes)
    (hs : salt.length = 32) (hi : iv.length = 16) (ht : tag.length = 16)
    (hsb : ∀ x ∈ salt, x < 256) (hib : ∀ x ∈ iv, x < 256)
    (htb : ∀ x ∈ tag, x < 256) (hcb : ∀ x ∈ ct, x < 256) (hK : K ≠ []) :
    decrypt_password lib (b64encodeBytes (salt ++ iv ++ tag ++ ct)) K =
      match derive_key_from_master lib K salt with
      | .error e => .error (.runtimeErrorFrom "Password decryption failed" e)
      | .ok key =>
        match gcmDecrypt key iv tag ct with
        | .error e => .error (.runtimeErrorFrom "Password decryption failed" e)
        | .ok pt => .ok pt := by
  have hdnil : salt ++ iv ++ tag ++ ct ≠ [] := by
    intro h
    have := congrArg List.length h
    rw [env_length salt iv tag ct hs hi ht] at this
    simp at this
  have henc := b64encode_ne_nil _ hdnil
  have hbytes := env_bytes_lt salt iv tag ct hsb hib htb hcb
  have hlen := env_length salt iv tag ct hs hi ht
  obtain ⟨e1, e2, e3, e4⟩ := env_slices salt iv tag ct hs hi ht
  unfold decrypt_password
  rw [if_neg henc, if_neg hK]
  simp only [b64_roundtrip _ hbytes]
  have c3 : SALT_SIZE + IV_SIZE + TAG_SIZE = 64 := rfl
  have c2 : SALT_SIZE + IV_SIZE = 48 := rfl
  have c1 : SALT_SIZE = 32 := rfl
  have c0 : IV_SIZE = 16 := rfl
  have c4 : TAG_SIZE = 16 := rfl
  rw [c3, c2, c1, c0, c4, if_neg (by omega), e1, e2, e3, e4]

theorem decrypt_encoded_std (salt iv tag ct K : Bytes)
    (hs : salt.length = 32) (hi : iv.length = 16) (ht : tag.length = 16)
    (hsb : ∀ x ∈ salt, x < 256) (hib : ∀ x ∈ iv, x < 256)
    (htb : ∀ x ∈ tag, x < 256) (hcb : ∀ x ∈ ct, x < 256) (hK : K ≠ []) :
    decrypt_password stdLib (b64encodeBytes (salt ++ iv ++ tag ++ ct)) K =
      match gcmDecrypt (deriveStd K salt) iv tag ct with
      | .error e => .error (.runtimeErrorFrom "Password decryption failed" e)
      | .ok pt => .ok pt := by
  have h := decrypt_encoded stdLib salt iv tag ct K hs hi ht hsb hib htb hcb hK
  rw [derive_stdLib K salt hK] at h
  exact h

theorem envCt_length (P K salt iv : Bytes) : (envCt P K salt iv).length = P.length :=
  gcmEncrypt_length _ _ _

theorem envCt_bytes (P K salt iv : Bytes) (h : ∀ x ∈ P, x < 256) :
    ∀ x ∈ envCt P K salt iv, x < 256 := gcmEncrypt_bytes _ _ _ h

theorem envTag_length (P K salt iv : Bytes) : (envTag P K salt iv).length = 16 :=
  gcmTag_length _ _ _

theorem envTag_bytes (P K salt iv : Bytes) : ∀ x ∈ envTag P K salt iv, x < 256 :=
  gcmTag_bytes _ _ _

/-- Decrypting an intact envelope recovers the plaintext. -/
theorem decrypt_of_encrypt (P K salt iv : Bytes) (hP : P ≠ []) (hK : K ≠ [])
    (hs : salt.length = 32) (hi : iv.length = 16) (hPb : ∀ x ∈ P, x < 256)
    (hsb : ∀ x ∈ salt, x < 256) (hib : ∀ x ∈ iv, x < 256) :
    decrypt_password stdLib
      (b64encodeBytes (salt ++ iv ++ envTag P K salt iv ++ envCt P K salt iv)) K =
      .ok P := by
  rw [decrypt_encoded_std salt iv _ _ K hs hi (envTag_length P K salt iv) hsb hib
    (envTag_bytes P K salt iv) (envCt_bytes P K salt iv hPb) hK]
  have hopen : gcmDecrypt (deriveStd K salt) iv (envTag P K salt iv)
      (envCt P K salt iv) = .ok P := by
    unfold gcmDecrypt
    rw [if_pos (show gcmTag (deriveStd K salt) iv (envCt P K salt iv) =
      envTag P K salt iv from rfl)]
    rw [envCt_length P K salt iv]
    refine congrArg Except.ok ?_
    show List.zipWith (fun a b => a ^^^ b) (envCt P K salt iv)
        (gcmKeystream (deriveStd K salt) iv P.length) = P
    unfold envCt gcmEncrypt
    exact zipWith_xor_cancel P _ (gcmKeystream_length _ _ _)
  rw [hopen]

/-- Behaviour of `decrypt_password` on a decodable envelope, by decoded
length: the short case takes the malformed-data branch; the long case
proceeds to key derivation and GCM open. -/
theorem decrypt_by_length (lib : CryptoLib) (s k b : Bytes) (hs : s ≠ [])
    (hk : k ≠ []) (hdec : b64decodeBytes s = some b) :
    (b.length < SALT_SIZE + IV_SIZE + TAG_SIZE →
      decrypt_password lib s k =
        .error (.valueErrorFrom "Invalid encrypted password data"
          (.valueError "Invalid encrypted data format"))) ∧
    (SALT_SIZE + IV_SIZE + TAG_SIZE ≤ b.length →
      decrypt_password lib s k =
        match derive_key_from_master lib k (b.take SALT_SIZE) with
        | .error e => .error (.runtimeErrorFrom "Password decryption failed" e)
        | .ok key =>
          match gcmDecrypt key ((b.drop SALT_SIZE).take IV_SIZE)
              ((b.drop (SALT_SIZE + IV_SIZE)).take TAG_SIZE)
              (b.drop (SALT_SIZE + IV_SIZE + TAG_SIZE)) with
          | .error e => .error (.runtimeErrorFrom "Password decryption failed" e)
          | .ok pt => .ok pt) := by
  unfold decrypt_password
  rw [if_neg hs, if_neg hk]
  simp only [hdec]
  constructor
  · intro hlt
    rw [if_pos hlt]
  · intro hge
    rw [if_neg (by omega)]

/-- Key derivation under the failing library wraps the library error. -/
theorem derive_failingLib (e : PyExc) (K salt : Bytes) (hK : K ≠ []) :
    derive_key_from_master (failingLib e) K salt =
      .error (.runtimeErrorFrom "Key derivation failed" e) := by
  simp [derive_key_from_master, failingLib, hK]

/-! ## Claim theorems -/

/-- C1: for every non-empty plaintext `P` and non-empty master key `K`, and
for any choice of the fresh random salt (32 bytes) and nonce (16 bytes)
drawn during encryption, `decrypt_password (encrypt_password P K) K = P`. -/
theorem c1_encrypt_decrypt_roundtrip (P K salt iv : Bytes) (hP : P ≠ [])
    (hK : K ≠ []) (hs : salt.length = SALT_SIZE) (hi : iv.length = IV_SIZE)
    (hPb : ∀ x ∈ P, x < 256) (hsb : ∀ x ∈ salt, x < 256)
    (hib : ∀ x ∈ iv, x < 256) :
    ∃ env, encrypt_password stdLib P K salt iv = .ok env ∧
      decrypt_password stdLib env K = .ok P :=
  ⟨_, encrypt_eq P K salt iv hP hK,
    decrypt_of_encrypt P K salt iv hP hK hs hi hPb hsb hib⟩

theorem c1_encrypt_decrypt_roundtrip_witness :
    (([80, 64, 115] : Bytes) ≠ [] ∧ ([97, 98] : Bytes) ≠ []) ∧
    (∃ env, encrypt_password stdLib [80, 64, 115] [97, 98]
        (List.replicate 32 5) (List.replicate 16 9) = .ok env ∧
      decrypt_password stdLib env [97, 98] = .ok [80, 64, 115]) :=
  ⟨⟨by decide, by decide⟩,
    c1_encrypt_decrypt_roundtrip [80, 64, 115] [97, 98] (List.replicate 32 5)
      (List.replicate 16 9) (by decide) (by decide) (by decide) (by decide)
      (by decide) (by decide) (by decide)⟩

/-- C2: the envelope returned by `encrypt_password` is exactly the base64
encoding of `salt(32) ++ nonce(16) ++ tag(16) ++ ciphertext`, the ciphertext
having the UTF-8 length of the plaintext, and decoding plus the fixed-offset
slices used by `decrypt_password` recover the four segments, all remaining
bytes going to the ciphertext. -/
theorem c2_envelope_layout (P K salt iv : Bytes) (hP : P ≠ []) (hK : K ≠ [])
    (hs : salt.length = SALT_SIZE) (hi : iv.length = IV_SIZE)
    (hPb : ∀ x ∈ P, x < 256) (hsb : ∀ x ∈ salt, x < 256)
    (hib : ∀ x ∈ iv, x < 256) :
    encrypt_password stdLib P K salt iv =
      .ok (b64encodeBytes (salt ++ iv ++ envTag P K salt iv ++ envCt P K salt iv)) ∧
    salt.length = SALT_SIZE ∧ iv.length = IV_SIZE ∧
    (envTag P K salt iv).length = TAG_SIZE ∧
    (envCt P K salt iv).length = P.length ∧
    b64decodeBytes
        (b64encodeBytes (salt ++ iv ++ envTag P K salt iv ++ envCt P K salt iv)) =
      some (salt ++ iv ++ envTag P K salt iv ++ envCt P K salt iv) ∧
    (salt ++ iv ++ envTag P K salt iv ++ envCt P K salt iv).take SALT_SIZE = salt ∧
    ((salt ++ iv ++ envTag P K salt iv ++ envCt P K salt iv).drop SALT_SIZE).take
      IV_SIZE = iv ∧
    ((salt ++ iv ++ envTag P K salt iv ++ envCt P K salt iv).drop
      (SALT_SIZE + IV_SIZE)).take TAG_SIZE = envTag P K salt iv ∧
    (salt ++ iv ++ envTag P K salt iv ++ envCt P K salt iv).drop
      (SALT_SIZE + IV_SIZE + TAG_SIZE) = envCt P K salt iv := by
  obtain ⟨e1, e2, e3, e4⟩ := env_slices salt iv (envTag P K salt iv)
    (envCt P K salt iv) hs hi (envTag_length P K salt iv)
  exact ⟨encrypt_eq P K salt iv hP hK, hs, hi, envTag_length P K salt iv,
    envCt_length P K salt iv,
    b64_roundtrip _ (env_bytes_lt _ _ _ _ hsb hib (envTag_bytes P K salt iv)
      (envCt_bytes P K salt iv hPb)),
    e1, e2, e3, e4⟩

theorem c2_envelope_layout_witness :
    (([80, 64, 115] : Bytes) ≠ [] ∧ ([97, 98] : Bytes) ≠ []) ∧
    encrypt_password stdLib [80, 64, 115] [97, 98] (List.replicate 32 5)
        (List.replicate 16 9) =
      .ok (b64encodeBytes (List.replicate 32 5 ++ List.replicate 16 9 ++
        envTag [80, 64, 115] [97, 98] (List.replicate 32 5) (List.replicate 16 9) ++
        envCt [80, 64, 115] [97, 98] (List.replicate 32 5) (List.replicate 16 9))) :=
  ⟨⟨by decide, by decide⟩,
    (c2_envelope_layout [80, 64, 115] [97, 98] (List.replicate 32 5)
      (List.replicate 16 9) (by decide) (by decide) (by decide) (by decide)
      (by decide) (by decide) (by decide)).1⟩

/-- C6 (counterexample): rotation does not propagate the inner error
transparently.  With an empty stored envelope, the inner decrypt step fails
with `ValueError("Encrypted password cannot be empty")`, but the caller of
`change_password_encryption` observes
`RuntimeError("Password re-encryption failed")` — a different signal. -/
theorem c6_counterexample :
    decrypt_password stdLib [] [107] =
      .error (.valueError "Encrypted password cannot be empty") ∧
    change_password_encryption stdLib [] [107] [108] [] [] =
      .error (.runtimeErrorFrom "Password re-encryption failed"
        (.valueError "Encrypted password cannot be empty")) ∧
    PyExc.runtimeErrorFrom "Password re-encryption failed"
        (.valueError "Encrypted password cannot be empty") ≠
      PyExc.valueError "Encrypted password cannot be empty" :=
  ⟨rfl, rfl, by decide⟩

/-- C6 (amended): when either inner operation of the rotation fails,
`change_password_encryption` fails with
`RuntimeError("Password re-encryption failed")` carrying the error of
whichever inner operation failed first as its chained cause — the inner
error is preserved only in the cause chain, not raised as-is. -/
theorem c6_rotation_error_wrapping (lib : CryptoLib)
    (old oldK newK salt iv : Bytes) :
    (∀ e, decrypt_password lib old oldK = .error e →
      change_password_encryption lib old oldK newK salt iv =
        .error (.runtimeErrorFrom "Password re-encryption failed" e)) ∧
    (∀ p e, decrypt_password lib old oldK = .ok p →
      encrypt_password lib p newK salt iv = .error e →
      change_password_encryption lib old oldK newK salt iv =
        .error (.runtimeErrorFrom "Password re-encryption failed" e)) := by
  constructor
  · intro e he
    unfold change_password_encryption
    rw [he]
  · intro p e hp he
    simp only [change_password_encryption, hp, he]

theorem c6_rotation_error_wrapping_witness :
    decrypt_password stdLib [] [107] =
      .error (.valueError "Encrypted password cannot be empty") ∧
    change_password_encryption stdLib [] [107] [108] [] [] =
      .error (.runtimeErrorFrom "Password re-encryption failed"
        (.valueError "Encrypted password cannot be empty")) :=
  ⟨rfl, (c6_rotation_error_wrapping stdLib [] [107] [108] [] []).1 _ rfl⟩

/-- C8: key derivation is deterministic, always returns exactly
`AES_KEY_SIZE = 32` bytes, and uses the fixed iteration count
`PBKDF2_ITERATIONS = 100000 ≥ 100000`. -/
theorem c8_kdf_deterministic_32_bytes (mk salt mk₂ salt₂ : Bytes)
    (hmk : mk ≠ []) :
    PBKDF2_ITERATIONS = 100000 ∧ 100000 ≤ PBKDF2_ITERATIONS ∧
    derive_key_from_master stdLib mk salt =
      .ok (pbkdf2Prf mk salt PBKDF2_ITERATIONS AES_KEY_SIZE) ∧
    (∃ k, derive_key_from_master stdLib mk salt = .ok k ∧
      k.length = 32 ∧ AES_KEY_SIZE = 32) ∧
    (mk = mk₂ → salt = salt₂ →
      derive_key_from_master stdLib mk salt =
        derive_key_from_master stdLib mk₂ salt₂) := by
  refine ⟨rfl, le_rfl, derive_stdLib mk salt hmk,
    ⟨deriveStd mk salt, derive_stdLib mk salt hmk,
      pbkdf2Prf_length mk salt PBKDF2_ITERATIONS AES_KEY_SIZE, rfl⟩, ?_⟩
  rintro rfl rfl
  rfl

theorem c8_kdf_deterministic_32_bytes_witness :
    (([97] : Bytes) ≠ []) ∧
    (PBKDF2_ITERATIONS = 100000 ∧ 100000 ≤ PBKDF2_ITERATIONS ∧
      derive_key_from_master stdLib [97] [3] =
        .ok (pbkdf2Prf [97] [3] PBKDF2_ITERATIONS AES_KEY_SIZE) ∧
      (∃ k, derive_key_from_master stdLib [97] [3] = .ok k ∧
        k.length = 32 ∧ AES_KEY_SIZE = 32) ∧
      ([97] = ([97] : Bytes) → [3] = ([3] : Bytes) →
        derive_key_from_master stdLib [97] [3] =
          derive_key_from_master stdLib [97] [3])) :=
  ⟨by decide, c8_kdf_deterministic_32_bytes [97] [3] [97] [3] (by decide)⟩

/-- C9: `encrypt_password` rejects an empty plaintext and an empty master
key with the `InvalidInput` `ValueError`s, for every library state and every
salt/nonce — the failure precedes salt/nonce use and key derivation —
and `derive_key_from_master` likewise rejects an empty master key. -/
theorem c9_encrypt_invalid_input (lib : CryptoLib) (p k salt iv salt₂ : Bytes)
    (hp : p ≠ []) :
    encrypt_password lib [] k salt iv =
      .error (.valueError "Password cannot be empty") ∧
    encrypt_password lib p [] salt iv =
      .error (.valueError "Master key cannot be empty") ∧
    derive_key_from_master lib [] salt₂ =
      .error (.valueError "Master key cannot be empty") := by
  refine ⟨rfl, ?_, rfl⟩
  unfold encrypt_password
  rw [if_neg hp, if_pos rfl]

theorem c9_encrypt_invalid_input_witness :
    (([97] : Bytes) ≠ []) ∧
    (encrypt_password stdLib [] [107] [] [] =
      .error (.valueError "Password cannot be empty") ∧
    encrypt_password stdLib [97] [] [] [] =
      .error (.valueError "Master key cannot be empty") ∧
    derive_key_from_master stdLib [] [] =
      .error (.valueError "Master key cannot be empty")) :=
  ⟨by decide, c9_encrypt_invalid_input stdLib [97] [107] [] [] [] (by decide)⟩

/-- C10: `decrypt_password` rejects an empty envelope and an empty master
key with a `ValueError` before any base64 decoding, length check or key
derivation: the result is the same for every library state and every
(possibly undecodable) envelope string. -/
theorem c10_decrypt_preconditions (lib : CryptoLib) (e k : Bytes)
    (he : e ≠ []) :
    decrypt_password lib [] k =
      .error (.valueError "Encrypted password cannot be empty") ∧
    decrypt_password lib e [] =
      .error (.valueError "Master key cannot be empty") := by
  refine ⟨rfl, ?_⟩
  unfold decrypt_password
  rw [if_neg he, if_pos rfl]

theorem c10_decrypt_preconditions_witness :
    (([33] : Bytes) ≠ []) ∧
    (decrypt_password stdLib [] [107] =
      .error (.valueError "Encrypted password cannot be empty") ∧
    decrypt_password stdLib [33] [] =
      .error (.valueError "Master key cannot be empty")) :=
  ⟨by decide, c10_decrypt_preconditions stdLib [33] [107] (by decide)⟩

/-- C3 (counterexample): the empty string base64-decodes to zero bytes,
which is shorter than 64, yet `decrypt_password` fails with the empty-input
`ValueError`, not with the malformed-envelope error. -/
theorem c3_counterexample :
    b64decodeBytes [] = some [] ∧
    ([] : Bytes).length < SALT_SIZE + IV_SIZE + TAG_SIZE ∧
    decrypt_password stdLib [] [107] =
      .error (.valueError "Encrypted password cannot be empty") ∧
    PyExc.valueError "Encrypted password cannot be empty" ≠
      PyExc.valueErrorFrom "Invalid encrypted password data"
        (.valueError "Invalid encrypted data format") :=
  ⟨rfl, by decide, rfl, by decide⟩

/-- C3 (amended): for every non-empty envelope string and non-empty master
key, if the base64-decoded bytes are shorter than
`SALT_SIZE + IV_SIZE + TAG_SIZE = 64`, `decrypt_password` fails with the
malformed-envelope `ValueError`; when the decoded length is at least 64,
that error branch is never taken. -/
theorem c3_malformed_envelope (lib : CryptoLib) (s k b : Bytes) (hs : s ≠ [])
    (hk : k ≠ []) (hdec : b64decodeBytes s = some b) :
    (b.length < SALT_SIZE + IV_SIZE + TAG_SIZE →
      decrypt_password lib s k =
        .error (.valueErrorFrom "Invalid encrypted password data"
          (.valueError "Invalid encrypted data format"))) ∧
    (SALT_SIZE + IV_SIZE + TAG_SIZE ≤ b.length →
      decrypt_password lib s k ≠
        .error (.valueErrorFrom "Invalid encrypted password data"
          (.valueError "Invalid encrypted data format"))) := by
  obtain ⟨h1, h2⟩ := decrypt_by_length lib s k b hs hk hdec
  refine ⟨h1, fun hge hcontra => ?_⟩
  rw [h2 hge] at hcontra
  split at hcontra
  · simp at hcontra
  · split at hcontra
    · simp at hcontra
    · simp at hcontra

theorem c3_malformed_envelope_witness :
    (b64encodeBytes [1, 2, 3] ≠ [] ∧ ([107] : Bytes) ≠ [] ∧
      b64decodeBytes (b64encodeBytes [1, 2, 3]) = some [1, 2, 3] ∧
      ([1, 2, 3] : Bytes).length < SALT_SIZE + IV_SIZE + TAG_SIZE) ∧
    decrypt_password stdLib (b64encodeBytes [1, 2, 3]) [107] =
      .error (.valueErrorFrom "Invalid encrypted password data"
        (.valueError "Invalid encrypted data format")) :=
  ⟨⟨by decide, by decide, by decide, by decide⟩,
    (c3_malformed_envelope stdLib (b64encodeBytes [1, 2, 3]) [107] [1, 2, 3]
      (by decide) (by decide) (by decide)).1 (by decide)⟩

/-- C4: every single-byte modification of the tag segment or of the
ciphertext segment of a valid envelope makes `decrypt_password` (with the
correct key) fail with the authentication error
`RuntimeError("Password decryption failed")` chaining `InvalidTag`; no
plaintext — in particular no altered plaintext — is ever returned. -/
theorem c4_tamper_detection (P K salt iv : Bytes) (hP : P ≠ []) (hK : K ≠ [])
    (hs : salt.length = SALT_SIZE) (hi : iv.length = IV_SIZE)
    (hPb : ∀ x ∈ P, x < 256) (hsb : ∀ x ∈ salt, x < 256)
    (hib : ∀ x ∈ iv, x < 256) :
    encrypt_password stdLib P K salt iv =
      .ok (b64encodeBytes (salt ++ iv ++ envTag P K salt iv ++ envCt P K salt iv)) ∧
    (∀ j x (hj : j < (envTag P K salt iv).length), x < 256 →
      x ≠ (envTag P K salt iv).get ⟨j, hj⟩ →
      decrypt_password stdLib
        (b64encodeBytes
          (salt ++ iv ++ (envTag P K salt iv).set j x ++ envCt P K salt iv)) K =
        .error (.runtimeErrorFrom "Password decryption failed" .invalidTag)) ∧
    (∀ j x (hj : j < (envCt P K salt iv).length), x < 256 →
      x ≠ (envCt P K salt iv).get ⟨j, hj⟩ →
      decrypt_password stdLib
        (b64encodeBytes
          (salt ++ iv ++ envTag P K salt iv ++ (envCt P K salt iv).set j x)) K =
        .error (.runtimeErrorFrom "Password decryption failed" .invalidTag)) := by
  refine ⟨encrypt_eq P K salt iv hP hK, ?_, ?_⟩
  · intro j x hj hx hne
    have hlen : ((envTag P K salt iv).set j x).length = 16 := by
      rw [List.length_set]
      exact envTag_length P K salt iv
    have hb : ∀ y ∈ (envTag P K salt iv).set j x, y < 256 := by
      intro y hy
      rcases List.mem_or_eq_of_mem_set hy with hy | rfl
      · exact envTag_bytes P K salt iv y hy
      · exact hx
    rw [decrypt_encoded_std salt iv _ _ K hs hi hlen hsb hib hb
      (envCt_bytes P K salt iv hPb) hK]
    have hgcm : gcmDecrypt (deriveStd K salt) iv ((envTag P K salt iv).set j x)
        (envCt P K salt iv) = .error .invalidTag := by
      unfold gcmDecrypt
      rw [if_neg (fun hcond => set_ne_of_ne hj hne hcond.symm)]
    simp only [hgcm]
  · intro j x hj hx hne
    have hlen : ((envCt P K salt iv).set j x).length = (envCt P K salt iv).length := by
      rw [List.length_set]
    have hb : ∀ y ∈ (envCt P K salt iv).set j x, y < 256 := by
      intro y hy
      rcases List.mem_or_eq_of_mem_set hy with hy | rfl
      · exact envCt_bytes P K salt iv hPb y hy
      · exact hx
    rw [decrypt_encoded_std salt iv _ _ K hs hi (envTag_length P K salt iv) hsb hib
      (envTag_bytes P K salt iv) hb hK]
    have hne2 : gcmTag (deriveStd K salt) iv ((envCt P K salt iv).set j x) ≠
        envTag P K salt iv :=
      gcmTag_set_ne (deriveStd K salt) iv (envCt P K salt iv) j hj x hx
        (envCt_bytes P K salt iv hPb) hne
    have hgcm : gcmDecrypt (deriveStd K salt) iv (envTag P K salt iv)
        ((envCt P K salt iv).set j x) = .error .invalidTag := by
      unfold gcmDecrypt
      rw [if_neg hne2]
    simp only [hgcm]

set_option maxRecDepth 100000 in
theorem c4_tamper_detection_witness :
    decrypt_password stdLib
      (b64encodeBytes (List.replicate 32 5 ++ List.replicate 16 9 ++
        envTag [80, 64, 115] [97, 98] (List.replicate 32 5) (List.replicate 16 9) ++
        (envCt [80, 64, 115] [97, 98] (List.replicate 32 5)
          (List.replicate 16 9)).set 0 0)) [97, 98] =
      .error (.runtimeErrorFrom "Password decryption failed" .invalidTag) :=
  (c4_tamper_detection [80, 64, 115] [97, 98] (List.replicate 32 5)
    (List.replicate 16 9) (by decide) (by decide) (by decide) (by decide)
    (by decide) (by decide) (by decide)).2.2 0 0 (by decide) (by decide) (by decide)

/-- C5: rotating an envelope from `keyA` to `keyB` yields an envelope that
decrypts to the original plaintext under `keyB` and is rejected under
`keyA` with the authentication error.  The final hypothesis is the model
analogue of the cryptographic wrong-key guarantee: the tag recomputed under
the key derived from `keyA` differs from the stored tag produced under
`keyB` (true for all but a negligible fraction of key pairs for a real
authenticated cipher, and checkable concretely in the model). -/
theorem c5_rotation (P keyA keyB salt₁ iv₁ salt₂ iv₂ : Bytes) (hP : P ≠ [])
    (hA : keyA ≠ []) (hB : keyB ≠ []) (hAB : keyA ≠ keyB)
    (hs₁ : salt₁.length = SALT_SIZE) (hi₁ : iv₁.length = IV_SIZE)
    (hs₂ : salt₂.length = SALT_SIZE) (hi₂ : iv₂.length = IV_SIZE)
    (hPb : ∀ x ∈ P, x < 256) (hs₁b : ∀ x ∈ salt₁, x < 256)
    (hi₁b : ∀ x ∈ iv₁, x < 256) (hs₂b : ∀ x ∈ salt₂, x < 256)
    (hi₂b : ∀ x ∈ iv₂, x < 256)
    (hsens : gcmTag (deriveStd keyA salt₂) iv₂ (envCt P keyB salt₂ iv₂) ≠
      envTag P keyB salt₂ iv₂) :
    ∃ env rotated,
      encrypt_password stdLib P keyA salt₁ iv₁ = .ok env ∧
      change_password_encryption stdLib env keyA keyB salt₂ iv₂ = .ok rotated ∧
      decrypt_password stdLib rotated keyB = .ok P ∧
      decrypt_password stdLib rotated keyA =
        .error (.runtimeErrorFrom "Password decryption failed" .invalidTag) := by
  refine ⟨b64encodeBytes
      (salt₁ ++ iv₁ ++ envTag P keyA salt₁ iv₁ ++ envCt P keyA salt₁ iv₁),
    b64encodeBytes
      (salt₂ ++ iv₂ ++ envTag P keyB salt₂ iv₂ ++ envCt P keyB salt₂ iv₂),
    encrypt_eq P keyA salt₁ iv₁ hP hA, ?_, ?_, ?_⟩
  · simp only [change_password_encryption,
      decrypt_of_encrypt P keyA salt₁ iv₁ hP hA hs₁ hi₁ hPb hs₁b hi₁b,
      encrypt_eq P keyB salt₂ iv₂ hP hB]
  · exact decrypt_of_encrypt P keyB salt₂ iv₂ hP hB hs₂ hi₂ hPb hs₂b hi₂b
  · rw [decrypt_encoded_std salt₂ iv₂ _ _ keyA hs₂ hi₂
      (envTag_length P keyB salt₂ iv₂) hs₂b hi₂b (envTag_bytes P keyB salt₂ iv₂)
      (envCt_bytes P keyB salt₂ iv₂ hPb) hA]
    have hgcm : gcmDecrypt (deriveStd keyA salt₂) iv₂ (envTag P keyB salt₂ iv₂)
        (envCt P keyB salt₂ iv₂) = .error .invalidTag := by
      unfold gcmDecrypt
      rw [if_neg hsens]
    simp only [hgcm]

set_option maxRecDepth 100000 in
theorem c5_rotation_witness :
    (([115, 101, 99] : Bytes) ≠ [] ∧ ([107, 65] : Bytes) ≠ [] ∧
      ([107, 66] : Bytes) ≠ [] ∧ ([107, 65] : Bytes) ≠ [107, 66]) ∧
    (∃ env rotated,
      encrypt_password stdLib [115, 101, 99] [107, 65] (List.replicate 32 1)
        (List.replicate 16 3) = .ok env ∧
      change_password_encryption stdLib env [107, 65] [107, 66]
        (List.replicate 32 2) (List.replicate 16 4) = .ok rotated ∧
      decrypt_password stdLib rotated [107, 66] = .ok [115, 101, 99] ∧
      decrypt_password stdLib rotated [107, 65] =
        .error (.runtimeErrorFrom "Password decryption failed" .invalidTag)) :=
  ⟨⟨by decide, by decide, by decide, by decide⟩,
    c5_rotation [115, 101, 99] [107, 65] [107, 66] (List.replicate 32 1)
      (List.replicate 16 3) (List.replicate 32 2) (List.replicate 16 4)
      (by decide) (by decide) (by decide) (by decide) (by decide) (by decide)
      (by decide) (by decide) (by decide) (by decide) (by decide) (by decide)
      (by decide) (by decide)⟩

/-- C7: the four error conditions of the taxonomy — `InvalidInput`,
`MalformedEnvelope`, `KeyDerivationFailed`, `AuthenticationFailed` — reach
the caller as four pairwise distinct exception values.  `InvalidInput` and
`MalformedEnvelope` are `ValueError`s with different messages;
`KeyDerivationFailed` and `AuthenticationFailed` are both
`RuntimeError("Password decryption failed")` and are distinguished only by
their chained causes (`RuntimeError("Key derivation failed")` versus
`InvalidTag`). -/
theorem c7_error_taxonomy_distinct (e : PyExc) (k s b sm bm salt iv : Bytes)
    (hk : k ≠ []) (hs : s ≠ []) (hsm : sm ≠ [])
    (hdec : b64decodeBytes s = some b)
    (hlen : SALT_SIZE + IV_SIZE + TAG_SIZE ≤ b.length)
    (hdecm : b64decodeBytes sm = some bm)
    (hlenm : bm.length < SALT_SIZE + IV_SIZE + TAG_SIZE)
    (htag : gcmTag (deriveStd k (b.take SALT_SIZE))
        ((b.drop SALT_SIZE).take IV_SIZE)
        (b.drop (SALT_SIZE + IV_SIZE + TAG_SIZE)) ≠
      (b.drop (SALT_SIZE + IV_SIZE)).take TAG_SIZE) :
    encrypt_password stdLib [] k salt iv =
      .error (.valueError "Password cannot be empty") ∧
    decrypt_password stdLib sm k =
      .error (.valueErrorFrom "Invalid encrypted password data"
        (.valueError "Invalid encrypted data format")) ∧
    decrypt_password (failingLib e) s k =
      .error (.runtimeErrorFrom "Password decryption failed"
        (.runtimeErrorFrom "Key derivation failed" e)) ∧
    decrypt_password stdLib s k =
      .error (.runtimeErrorFrom "Password decryption failed" .invalidTag) ∧
    PyExc.valueError "Password cannot be empty" ≠
      .valueErrorFrom "Invalid encrypted password data"
        (.valueError "Invalid encrypted data format") ∧
    PyExc.valueError "Password cannot be empty" ≠
      .runtimeErrorFrom "Password decryption failed"
        (.runtimeErrorFrom "Key derivation failed" e) ∧
    PyExc.valueError "Password cannot be empty" ≠
      .runtimeErrorFrom "Password decryption failed" .invalidTag ∧
    PyExc.valueErrorFrom "Invalid encrypted password data"
        (.valueError "Invalid encrypted data format") ≠
      .runtimeErrorFrom "Password decryption failed"
        (.runtimeErrorFrom "Key derivation failed" e) ∧
    PyExc.valueErrorFrom "Invalid encrypted password data"
        (.valueError "Invalid encrypted data format") ≠
      .runtimeErrorFrom "Password decryption failed" .invalidTag ∧
    PyExc.runtimeErrorFrom "Password decryption failed"
        (.runtimeErrorFrom "Key derivation failed" e) ≠
      .runtimeErrorFrom "Password decryption failed" .invalidTag := by
  refine ⟨rfl, (decrypt_by_length stdLib sm k bm hsm hk hdecm).1 hlenm, ?_, ?_,
    by decide, fun h => PyExc.noConfusion h, by decide,
    fun h => PyExc.noConfusion h, by decide, ?_⟩
  · rw [(decrypt_by_length (failingLib e) s k b hs hk hdec).2 hlen,
      derive_failingLib e k (b.take SALT_SIZE) hk]
  · rw [(decrypt_by_length stdLib s k b hs hk hdec).2 hlen,
      derive_stdLib k (b.take SALT_SIZE) hk]
    have hgcm : gcmDecrypt (deriveStd k (b.take SALT_SIZE))
        ((b.drop SALT_SIZE).take IV_SIZE)
        ((b.drop (SALT_SIZE + IV_SIZE)).take TAG_SIZE)
        (b.drop (SALT_SIZE + IV_SIZE + TAG_SIZE)) = .error .invalidTag := by
      unfold gcmDecrypt
      rw [if_neg htag]
    simp only [hgcm]
  · intro h
    injection h with h1 h2
    exact PyExc.noConfusion h2

set_option maxRecDepth 100000 in
theorem c7_error_taxonomy_distinct_witness :
    decrypt_password (failingLib (.runtimeError "entropy failure"))
        (b64encodeBytes (List.replicate 64 0)) [107] =
      .error (.runtimeErrorFrom "Password decryption failed"
        (.runtimeErrorFrom "Key derivation failed"
          (.runtimeError "entropy failure"))) ∧
    decrypt_password stdLib (b64encodeBytes (List.replicate 64 0)) [107] =
      .error (.runtimeErrorFrom "Password decryption failed" .invalidTag) :=
  have h := c7_error_taxonomy_distinct (.runtimeError "entropy failure") [107]
    (b64encodeBytes (List.replicate 64 0)) (List.replicate 64 0)
    (b64encodeBytes [1, 2, 3]) [1, 2, 3] [] [] (by decide) (by decide)
    (by decide) (by decide) (by decide) (by decide) (by decide) (by decide)
  ⟨h.2.2.1, h.2.2.2.1⟩

end CryptoUtils
